import Mathlib

/-!
Verification of the EricPlayground configuration editor.

This file gives a shallow embedding of the repository's core logic and
proves/refutes the stated properties about it:

* `src/util.py` — the `VALIDATOR` / `CASTER` tables and `type_cast`
  (string-to-typed-value conversion);
* `src/tui.py` — the `MutableInputField` interaction protocol
  (add/remove items of a list-valued field), `KayakuScreen.from_model`
  (form-model construction) and `EricTUI.action_save`.

Strings are modelled by Lean `String`.  Python's Unicode digit classes
are modelled exactly: the table of decimal-digit blocks (category `Nd`,
which is what `re`'s `\d` matches and what `int()`/`float()` parse) and
the digit-property extras that only `str.isdigit` accepts (such as the
superscript `'²'`) are generated from CPython's own `unicodedata` tables.
Whitespace stripping and case folding are modelled for the ASCII range
only; both restrictions err conservatively (the model fails where CPython
would succeed) and no theorem's truth depends on them.  Python functions
that can raise are modelled with `Except` / `Option`.
-/

namespace EricPlayground

/-! ## Python values and types (the embedding's universe)

`src/util.py` passes around Python runtime values and `type` objects.
A `PyVal.float` carries the literal it was parsed from: no claim here
depends on floating-point arithmetic, only on whether parsing succeeds.
`PyType.other` stands for any type outside the ones this code names
(e.g. `dict`); `PyType.list t` is the parametrized generic `list[t]`. -/

inductive PyVal where
  | str (s : String)
  | int (n : Int)
  | float (lit : String)
  | bool (b : Bool)
  | other (typeName : String)
deriving DecidableEq, Repr

inductive PyType where
  | str
  | int
  | float
  | bool
  | list (elem : PyType)
  | other (typeName : String)
deriving DecidableEq, Repr

/-- Python exceptions that `type_cast` and the lambdas in
`VALIDATOR`/`CASTER` can raise. -/
inductive PyErr where
  | notImplementedError (msg : String)
  | valueError (msg : String)
  | typeError (msg : String)
  | attributeError (msg : String)
deriving DecidableEq, Repr

/-- `isinstance(value, typ)`.  `bool` is a subclass of `int` in Python, so a
`bool` value is an instance of `int`.  `isinstance` against a parametrized
generic (`list[T]`) raises `TypeError`; that case is fenced off before this
function is consulted (see `type_cast`). -/
def isinstance : PyVal → PyType → Bool
  | .str _, .str => true
  | .int _, .int => true
  | .bool _, .bool => true
  | .bool _, .int => true
  | .float _, .float => true
  | .other n, .other m => n == m
  | _, _ => false

/-- A human-readable name for a `PyType` (used in error messages, mirroring
Python's `f"Type {typ} is not supported"`). -/
def PyType.name : PyType → String
  | .str => "str"
  | .int => "int"
  | .float => "float"
  | .bool => "bool"
  | .list t => "list[" ++ t.name ++ "]"
  | .other n => n

/-! ## Models of the Python string primitives used by `util.py`

These are written on `List Char` by structural recursion so that the
kernel can evaluate them on concrete inputs. -/

/-- The ASCII whitespace characters stripped by `int()` / `float()`
before parsing. -/
def isPyWhitespace (c : Char) : Bool :=
  c == ' ' || c == '\t' || c == '\n' || c == '\r' || c == '\x0b' || c == '\x0c'

/-- Strip leading and trailing whitespace (model of Python's stripping
inside `int()` / `float()`). -/
def pyStrip (cs : List Char) : List Char :=
  ((cs.dropWhile isPyWhitespace).reverse.dropWhile isPyWhitespace).reverse

/-- The starts of the 10-character blocks of Unicode category `Nd` (the
decimal digit characters, digit values `0`-`9` in order within each
block), generated from CPython's `unicodedata` tables.  This is exactly
the class `re`'s `\d` matches in a `str` pattern, and exactly the digit
characters `int()` / `float()` accept. -/
def ndBlockStarts : List Nat :=
  [48, 1632, 1776, 1984, 2406, 2534, 2662, 2790, 2918, 3046, 3174, 3302,
   3430, 3558, 3664, 3792, 3872, 4160, 4240, 6112, 6160, 6470, 6608, 6784,
   6800, 6992, 7088, 7232, 7248, 42528, 43216, 43264, 43472, 43504, 43600,
   44016, 65296, 66720, 68912, 69734, 69872, 69942, 70096, 70384, 70736,
   70864, 71248, 71360, 71472, 71904, 72016, 72784, 73040, 73120, 92768,
   92864, 93008, 120782, 120792, 120802, 120812, 120822, 123200, 123632,
   125264, 130032]

/-- The `Nd` block a character belongs to, if any. -/
def ndBlockStart (c : Char) : Option Nat :=
  ndBlockStarts.find? (fun b => decide (b ≤ c.toNat) && decide (c.toNat ≤ b + 9))

/-- A Unicode decimal digit (category `Nd`): the class `re`'s `\d`
matches.  ASCII `0`-`9` is its first block. -/
def isReDigit (c : Char) : Bool :=
  (ndBlockStart c).isSome

/-- The codepoints with the Unicode digit property but outside `Nd`
(superscripts such as `'²'`, subscripts, circled digits, …), generated
from CPython: `str.isdigit` accepts them but `int()` rejects them. -/
def digitExtras : List Nat :=
  [178, 179, 185, 4969, 4970, 4971, 4972, 4973, 4974, 4975, 4976, 4977,
   6618, 8304, 8308, 8309, 8310, 8311, 8312, 8313, 8320, 8321, 8322, 8323,
   8324, 8325, 8326, 8327, 8328, 8329, 9312, 9313, 9314, 9315, 9316, 9317,
   9318, 9319, 9320, 9332, 9333, 9334, 9335, 9336, 9337, 9338, 9339, 9340,
   9352, 9353, 9354, 9355, 9356, 9357, 9358, 9359, 9360, 9450, 9461, 9462,
   9463, 9464, 9465, 9466, 9467, 9468, 9469, 9471, 10102, 10103, 10104,
   10105, 10106, 10107, 10108, 10109, 10110, 10112, 10113, 10114, 10115,
   10116, 10117, 10118, 10119, 10120, 10122, 10123, 10124, 10125, 10126,
   10127, 10128, 10129, 10130, 68160, 68161, 68162, 68163, 69216, 69217,
   69218, 69219, 69220, 69221, 69222, 69223, 69224, 69714, 69715, 69716,
   69717, 69718, 69719, 69720, 69721, 69722, 127232, 127233, 127234, 127235,
   127236, 127237, 127238, 127239, 127240, 127241, 127242]

/-- The character class of Python's `str.isdigit`: the decimal digits
plus the digit-property extras.  Strictly wider than `0`-`9`, and
strictly wider than what `int()` parses. -/
def pyIsDigitChar (c : Char) : Bool :=
  isReDigit c || digitExtras.contains c.toNat

/-- Model of `str.isdigit`: non-empty and every character in `isdigit`'s
class. -/
def pyIsdigit (s : String) : Bool :=
  !s.data.isEmpty && s.data.all pyIsDigitChar

/-- The numeric value of an ASCII decimal digit character. -/
def digitVal (c : Char) : Nat := c.toNat - 48

/-- The ASCII digit of value `i` (for `i ≤ 9`). -/
def digitCharOf : Nat → Char
  | 0 => '0'
  | 1 => '1'
  | 2 => '2'
  | 3 => '3'
  | 4 => '4'
  | 5 => '5'
  | 6 => '6'
  | 7 => '7'
  | 8 => '8'
  | 9 => '9'
  | _ => '0'

/-- CPython's decimal transform, applied by `int()` and `float()` before
parsing: every Unicode decimal digit is replaced by the ASCII digit of
the same value (an ASCII digit is thereby left in place, since `0`-`9`
is the first `Nd` block); every other character is left unchanged.
(CPython also folds Unicode whitespace to a space; only ASCII whitespace
is modelled, which errs conservatively and no theorem relies on it.) -/
def transformDecimal (c : Char) : Char :=
  match ndBlockStart c with
  | some b => digitCharOf (c.toNat - b)
  | none => c

/-- Consume a CPython `digitpart`: `digit (("_")? digit)*`, accumulating the
decimal value.  An underscore not followed by a digit stops consumption and
is left in the remainder (whence the overall parse then fails, as in
Python, because the remainder is not empty / not a valid continuation). -/
def digitRunGo (acc : Nat) : List Char → Nat × List Char
  | [] => (acc, [])
  | c :: rest =>
      if c = '_' then
        match rest with
        | c2 :: rest2 =>
            if c2.isDigit then digitRunGo (10 * acc + digitVal c2) rest2
            else (acc, c :: c2 :: rest2)
        | [] => (acc, [c])
      else if c.isDigit then digitRunGo (10 * acc + digitVal c) rest
      else (acc, c :: rest)

/-- Consume a leading `digitpart`; `none` when the input does not start
with a digit. -/
def digitRun : List Char → Option (Nat × List Char)
  | [] => none
  | c :: rest => if c.isDigit then some (digitRunGo (digitVal c) rest) else none

/-- Drop one leading sign character, if present. -/
def stripSign (cs : List Char) : List Char :=
  match cs with
  | c :: r => if c = '+' || c = '-' then r else cs
  | [] => cs

/-- The sign a leading sign character denotes (`1` when there is none). -/
def signVal (cs : List Char) : Int :=
  match cs with
  | c :: _ => if c = '-' then -1 else 1
  | [] => 1

/-- CPython `int(x)` after the decimal transform: strip whitespace,
optional sign, then a `digitpart` that must consume the whole
remainder. -/
def pyIntParseChars (cs : List Char) : Option Int :=
  let stripped := pyStrip cs
  match digitRun (stripSign stripped) with
  | some (n, []) => some (signVal stripped * n)
  | _ => none

/-- Model of CPython `int(x)` on a string: the decimal transform followed
by the stripped, optionally signed digit parse. -/
def pyIntParse (s : String) : Option Int :=
  pyIntParseChars (s.data.map transformDecimal)

/-- Consume a `digitpart`, keeping only the remainder. -/
def floatDigitpart (cs : List Char) : Option (List Char) :=
  (digitRun cs).map Prod.snd

/-- Consume the mantissa of a CPython float literal:
`digitpart ["." [digitpart]] | "." digitpart`. -/
def floatMantissa (cs : List Char) : Option (List Char) :=
  match floatDigitpart cs with
  | some rest =>
      match rest with
      | '.' :: rest2 =>
          match floatDigitpart rest2 with
          | some rest3 => some rest3
          | none => some rest2
      | _ => some rest
  | none =>
      match cs with
      | '.' :: rest2 => floatDigitpart rest2
      | _ => none

/-- Consume an exponent `("e"|"E") [sign] digitpart`. -/
def floatExponent : List Char → Option (List Char)
  | [] => none
  | c :: rest =>
      if c = 'e' || c = 'E' then
        match rest with
        | '+' :: r => floatDigitpart r
        | '-' :: r => floatDigitpart r
        | _ => floatDigitpart rest
      else none

/-- An unsigned float literal or the named values, consuming everything. -/
def pyFloatBody (body : List Char) : Bool :=
  (["inf", "infinity", "nan"].map String.data).contains (body.map Char.toLower) ||
  (match floatMantissa body with
   | some [] => true
   | some rest => floatExponent rest == some []
   | none => false)

/-- Model of CPython `float(x)` succeeding on a string: the decimal
transform, then strip whitespace, optional sign, then `inf`/`infinity`/
`nan` (case-insensitively) or a float literal `mantissa [exponent]`
consuming the whole remainder. -/
def pyFloatAccepts (s : String) : Bool :=
  pyFloatBody (stripSign (pyStrip (s.data.map transformDecimal)))

/-- After the leading digit of `\d+\.\d+`: the rest of the digits, the
literal dot, then one or more digits, consuming the whole input.  `\d`
in a `str` pattern matches every Unicode decimal digit (`isReDigit`). -/
def floatRegexTail : List Char → Bool
  | [] => false
  | c :: rest =>
      if c = '.' then !rest.isEmpty && rest.all isReDigit
      else isReDigit c && floatRegexTail rest

/-- The regular expression `\d+\.\d+` against the whole input: one or more
Unicode decimal digits, a literal dot, one or more decimal digits. -/
def floatRegexCore : List Char → Bool
  | [] => false
  | c :: rest => isReDigit c && floatRegexTail rest

/-- Model of `re.match(r"^\d+\.\d+$", x) is not None`.  In Python's `re`,
`$` matches at the end of the string *or just before a newline at the end
of the string*, so a single trailing `'\n'` is accepted. -/
def reFullMatchFloat (s : String) : Bool :=
  floatRegexCore s.data ||
    (s.data.getLast? == some '\n' && floatRegexCore s.data.dropLast)

/-- Model of `str.lower` (ASCII case folding). -/
def pyLower (s : String) : String :=
  String.mk (s.data.map Char.toLower)

/-! ## `src/util.py`: `VALIDATOR`, `CASTER`, `type_cast` -/

/-- The `VALIDATOR` dict of `src/util.py`: for each supported type, the
predicate telling whether a raw string is well-formed for it.  `none` for
a type that is not a key of the dict. -/
def VALIDATOR : PyType → Option (String → Bool)
  | .str => some fun _ => true
  | .int => some fun x => pyIsdigit x
  | .float => some fun x => reFullMatchFloat x
  | .bool => some fun x => ["True", "False", "true", "false"].contains x
  | _ => none

/-- The `CASTER` dict of `src/util.py`: for each supported type, the
conversion applied to a raw string.  `int(x)` and `float(x)` raise
`ValueError` on ill-formed input; the `str` and `bool` casters are total. -/
def CASTER : PyType → Option (String → Except PyErr PyVal)
  | .str => some fun x => .ok (.str x)
  | .int => some fun x =>
      match pyIntParse x with
      | some n => .ok (.int n)
      | none => .error (.valueError ("invalid literal for int() with base 10: " ++ x))
  | .float => some fun x =>
      if pyFloatAccepts x then .ok (.float x)
      else .error (.valueError ("could not convert string to float: " ++ x))
  | .bool => some fun x => .ok (.bool (pyLower x == "true"))
  | _ => none

/-- `validate(s, k)`: the spec's name for looking up `k`'s validator and
applying it (false when `k` has no validator). -/
def validate (s : String) (k : PyType) : Bool :=
  match VALIDATOR k with
  | some f => f s
  | none => false

/-- `coerce(s, k)`: the spec's name for looking up `k`'s caster and
applying it. -/
def coerce (s : String) (k : PyType) : Except PyErr PyVal :=
  match CASTER k with
  | some f => f s
  | none => .error (.notImplementedError ("Type " ++ k.name ++ " is not supported"))

deriving instance DecidableEq for Except

/-- Whether an `Except` computation succeeded ("does not fail"). -/
def succeeds {α : Type} : Except PyErr α → Bool
  | .ok _ => true
  | .error _ => false

/-- `type_cast(value, typ)` from `src/util.py`:

```
if isinstance(value, typ): return value
if typ not in VALIDATOR: raise NotImplementedError(...)
if not VALIDATOR[typ](value): raise ValueError(...)
return CASTER[typ](value)
```

A parametrized generic as `typ` makes the `isinstance` call itself raise
`TypeError`.  When `value` is not a string and reaches the validator, the
validator lambda raises or returns per its body: `VALIDATOR[str]` ignores
its argument (and `CASTER[str]` is the identity), `x.isdigit()` raises
`AttributeError`, `re.match` raises `TypeError`, and set membership is
`False` (so `type_cast` raises `ValueError`). -/
def type_cast (value : PyVal) (typ : PyType) : Except PyErr PyVal :=
  match typ with
  | .list _ => .error (.typeError "isinstance() argument 2 cannot be a parameterized generic")
  | _ =>
    if isinstance value typ then .ok value
    else if (VALIDATOR typ).isNone then
      .error (.notImplementedError ("Type " ++ typ.name ++ " is not supported"))
    else
      match value with
      | .str s =>
          if validate s typ then coerce s typ
          else .error (.valueError ("Invalid value for " ++ typ.name ++ ": " ++ s))
      | v =>
          match typ with
          | .str => .ok v
          | .int => .error (.attributeError "object has no attribute isdigit")
          | .float => .error (.typeError "expected string or bytes-like object")
          | _ => .error (.valueError ("Invalid value for " ++ typ.name))

/-! ## `src/tui.py`: the `MutableInputField` interaction protocol

A `MutableInputField` is the multi-value editor of one list-typed field.
Its Python state is:

* `data : list[str]` — the committed item strings (appended to by the
  add branch of `on_button_pressed`, and never shrunk);
* `_widgets : dict[str, Widget]` — the tracked/displayed item rows, keyed
  by the decimal rendering of the position index they were allocated;
* `_input : str` — the pending (uncommitted) input buffer, kept in sync
  with the text box by `on_input_changed`.

The dict is modelled by its insertion-ordered key list (the widget values
only matter for display).  `on_button_pressed` returns `None` in Python;
the model also reports the two observables of a call: the notification it
mounts, if any, and the position index a successful add allocates. -/

structure MState where
  data : List String
  widgets : List String
  input : String
deriving DecidableEq, Repr

/-- `MutableInputField.buttonIdPrefix`: the property returns
`f"{self._field_classes}"`. -/
def buttonIdPrefix (classes : String) : String := classes

/-- Model of `str.startswith`. -/
def strStartsWith (s p : String) : Bool := p.data.isPrefixOf s.data

/-- Split on `'_'`, keeping empty pieces (model of `str.split("_")`). -/
def splitUnderscoreAux (cur : List Char) : List Char → List (List Char)
  | [] => [cur.reverse]
  | c :: rest =>
      if c = '_' then cur.reverse :: splitUnderscoreAux [] rest
      else splitUnderscoreAux (c :: cur) rest

/-- Model of `s.split("_")[-1]` (`split` always returns a non-empty list). -/
def pySplitUnderscoreLast (s : String) : String :=
  String.mk ((splitUnderscoreAux [] s.data).getLastD [])

/-- The empty-input notice mounted by the add branch. -/
def emptyInputNotice : String := "输入不能为空"

/-- `MutableInputField.on_button_pressed(event)` for a button with id
`buttonId` (the add button's id is `{prefix}_add`, a remove button's id is
`{prefix}_remove_{index}`):

* an id that is empty or does not start with the field's prefix is ignored;
* a `{prefix}_remove…` id removes the widget keyed by the id's last
  `"_"`-separated component from the tracked dict — `self.data` is left
  untouched;
* otherwise (the add button): an empty pending buffer mounts the
  empty-input notification and changes nothing; a non-empty buffer is
  appended to `data` as item `len(data) + 1`, a row keyed by that index is
  tracked, and the buffer (and the text box) is cleared. -/
def on_button_pressed (classes : String) (buttonId : String) (st : MState) :
    MState × Option String × Option Nat :=
  if buttonId == "" || !strStartsWith buttonId (buttonIdPrefix classes) then
    (st, none, none)
  else if strStartsWith buttonId (buttonIdPrefix classes ++ "_remove") then
    if st.widgets.contains (pySplitUnderscoreLast buttonId) then
      ({ st with widgets := st.widgets.erase (pySplitUnderscoreLast buttonId) }, none, none)
    else (st, none, none)
  else if st.input == "" then
    (st, some emptyInputNotice, none)
  else
    ({ data := st.data ++ [st.input],
       widgets := st.widgets ++ [toString (st.data.length + 1)],
       input := "" },
     none, some (st.data.length + 1))

/-- The two events a `MutableInputField` receives: `on_input_changed`
(the text box's value changed) and `on_button_pressed`. -/
inductive FieldEvent where
  | inputChanged (value : String)
  | buttonPressed (id : String)
deriving DecidableEq, Repr

/-- One event step of a `MutableInputField` session. -/
def fieldStep (classes : String) (st : MState) :
    FieldEvent → MState × Option String × Option Nat
  | .inputChanged v => ({ st with input := v }, none, none)
  | .buttonPressed id => on_button_pressed classes id st

/-- Run a sequence of events, collecting the position indices allocated by
the successful adds, in order. -/
def runEvents (classes : String) (st : MState) :
    List FieldEvent → MState × List Nat
  | [] => (st, [])
  | e :: es =>
      let r := fieldStep classes st e
      let rest := runEvents classes r.1 es
      (rest.1, r.2.2.toList ++ rest.2)

/-! ## `src/tui.py`: `KayakuScreen.from_model`

A kayaku `ConfigModel` is a dataclass; `from_model` walks its fields and
builds one widget per field. -/

/-- One dataclass field as `from_model` reads it: `default = none` models
`dataclasses.MISSING`; `default_factory` records whether a factory is
present; `description` is `field.metadata.get("description", "")`. -/
structure PyField where
  name : String
  typ : PyType
  default : Option PyVal
  default_factory : Bool
  description : String
deriving DecidableEq, Repr

/-- A `ConfigModel` class: its `__name__` and its dataclass fields in
declaration order. -/
structure PyModel where
  modelName : String
  fields : List PyField
deriving DecidableEq, Repr

/-- `typing.get_origin(typ) == list`: true exactly for the parametrized
generic `list[T]`. -/
def hasListOrigin : PyType → Bool
  | .list _ => true
  | _ => false

/-- The hint string: `f"{typ!r}"` when the type has an origin, else
`f"{typ.__name__}"`.  Both render as `PyType.name` in this model
(`repr(list[int])` is `"list[int]"`, `int.__name__` is `"int"`). -/
def typeHintOf (t : PyType) : String := t.name

/-- `KayakuScreen.is_required_field`: no default and no default factory. -/
def is_required_field (f : PyField) : Bool :=
  f.default.isNone && !f.default_factory

/-- `KayakuScreen.assemble_description`, with the rich `Text` flattened to
its plain text: optional-and-undocumented fields show only the hint;
otherwise the required marker (when required), the docs, a blank line and
`@type: ` + hint. -/
def assemble_description (required : Bool) (docs hint : String) : String :=
  if !required && docs == "" then hint
  else (if required then "*必填 " else "") ++ docs ++ "\n\n" ++ "@type: " ++ hint

/-- `str(default)` for the placeholder. -/
def pyStr : PyVal → String
  | .str s => s
  | .int n => toString n
  | .bool b => if b then "True" else "False"
  | .float lit => lit
  | .other n => "<" ++ n ++ " object>"

/-- The placeholder text: the `"<未设置>"` sentinel when the default is the
empty string, empty when there is no default, else the default's string
form (`field.default == ""` is checked before the `MISSING` test in the
source; the order does not matter since `MISSING != ""`). -/
def placeholderOf (default : Option PyVal) : String :=
  match default with
  | some (.str "") => "<未设置>"
  | none => ""
  | some v => pyStr v

/-- The widgets `from_model` appends: the model-name title, and one
single-value or multi-value input field per dataclass field. -/
inductive Component where
  | containerTitle (name : String)
  | inputField (classes label placeholder description : String)
  | mutableInputField (classes label placeholder description : String)
deriving DecidableEq, Repr

/-- The widget built for one field: a `MutableInputField` when the declared
type's origin is `list`, an `InputField` otherwise. -/
def componentOfField (modelName : String) (f : PyField) : Component :=
  let hint := typeHintOf f.typ
  let desc := assemble_description (is_required_field f) f.description hint
  let placeholder := placeholderOf f.default
  if hasListOrigin f.typ then
    .mutableInputField modelName f.name placeholder desc
  else
    .inputField modelName f.name placeholder desc

/-- `KayakuScreen.from_model`: the title widget followed by one widget per
field, in declaration order.  The Python body contains no failure path —
in particular it never compares the field's declared type against the
supported enumeration — so the `Except` wrapper (kept so that the
build-time-failure property can be stated) never takes the error
constructor. -/
def from_model (m : PyModel) : Except PyErr (List Component) :=
  .ok (.containerTitle m.modelName :: m.fields.map (componentOfField m.modelName))

/-! ## `src/tui.py`: `EricTUI.action_save` -/

/-- The working state of one field's editor: the single-value editor's
`InputField.data`, or the multi-value editor's `MutableInputField` state. -/
inductive FieldState where
  | single (working : String)
  | multi (st : MState)
deriving DecidableEq, Repr

/-- The observable actions of `EricTUI.action_save`: the external store's
`kayaku.save_all()`, the terminal bell, and the mounted notification. -/
inductive SaveEffect where
  | saveAll
  | bell
  | notify (message : String)
deriving DecidableEq, Repr

/-- `EricTUI.action_save`:

```
kayaku.save_all()
self.bell()
self.screen.mount(Notification("已保存更改"))
```

It hands persistence to the external store and reports success; it reads
no editor state — the argument (the per-field editor states, keyed by
field name) is ignored, and `type_cast` is never invoked. -/
def action_save (_fields : List (String × FieldState)) : List SaveEffect :=
  [.saveAll, .bell, .notify "已保存更改"]

/-! ## Spec-side characterizations and concrete fixtures

The definitions below restate claim language independently of the source
translation above, so that the theorems compare the two. -/

/-- The decimal parse of a digit string, per the claims' words. -/
def decimalNat (s : String) : Nat :=
  s.data.foldl (fun a c => 10 * a + (c.toNat - 48)) 0

/-- The claims' words for the floating-point shape: one-or-more digits, a
literal `'.'`, one-or-more digits, with nothing before or after — where
"digit" is the class the program's `\d` matches, i.e. every Unicode
decimal digit (`isReDigit`). -/
def specFloatShape (cs : List Char) : Prop :=
  ∃ ds fs, ds ≠ [] ∧ fs ≠ [] ∧ (∀ c ∈ ds, isReDigit c = true) ∧
    (∀ c ∈ fs, isReDigit c = true) ∧ cs = ds ++ '.' :: fs

/-- A schema with one field whose declared type (`dict`) is neither a
supported scalar nor a recognized list-of-scalar. -/
def unsupportedFieldModel : PyModel :=
  ⟨"Bad", [⟨"mapping", .other "dict", none, false, ""⟩]⟩

/-- The event script of the claims' add/remove scenario, against a field of
the `EricConfig` model: three adds, a removal of position 2, one more add. -/
def addRemoveScenario : List FieldEvent :=
  [.inputChanged "a", .buttonPressed "EricConfig_add",
   .inputChanged "b", .buttonPressed "EricConfig_add",
   .inputChanged "c", .buttonPressed "EricConfig_add",
   .buttonPressed "EricConfig_remove_2",
   .inputChanged "d", .buttonPressed "EricConfig_add"]

/-! ## Helper lemmas about the character-level primitives -/

theorem isDigit_ne_underscore {c : Char} (h : c.isDigit = true) : c ≠ '_' := by
  intro heq
  rw [heq] at h
  exact absurd h (by decide)

theorem isDigit_not_ws {c : Char} (h : c.isDigit = true) : isPyWhitespace c = false := by
  by_contra hne
  rw [Bool.not_eq_false] at hne
  simp only [isPyWhitespace, Bool.or_eq_true, beq_iff_eq] at hne
  rcases hne with ((((rfl | rfl) | rfl) | rfl) | rfl) | rfl <;> exact absurd h (by decide)

theorem dropWhile_eq_self_of_false {p : Char → Bool} {l : List Char}
    (h : ∀ c ∈ l, p c = false) : l.dropWhile p = l := by
  cases l with
  | nil => rfl
  | cons a t =>
      rw [List.dropWhile_cons, h a (List.mem_cons_self a t)]
      simp

theorem pyStrip_eq_self {cs : List Char} (h : ∀ c ∈ cs, isPyWhitespace c = false) :
    pyStrip cs = cs := by
  unfold pyStrip
  rw [dropWhile_eq_self_of_false h,
    dropWhile_eq_self_of_false (fun c hc => h c (List.mem_reverse.mp hc)),
    List.reverse_reverse]

theorem pyStrip_snoc_newline {cs : List Char} (h : ∀ c ∈ cs, isPyWhitespace c = false) :
    pyStrip (cs ++ ['\n']) = cs := by
  cases cs with
  | nil => decide
  | cons a t =>
      have ha : isPyWhitespace a = false := h a (List.mem_cons_self a t)
      unfold pyStrip
      have h1 : List.dropWhile isPyWhitespace ((a :: t) ++ ['\n']) = (a :: t) ++ ['\n'] := by
        rw [List.cons_append, List.dropWhile_cons, ha]
        simp
      rw [h1]
      have h2 : ((a :: t) ++ ['\n']).reverse = '\n' :: (a :: t).reverse := by simp
      rw [h2, List.dropWhile_cons]
      rw [show isPyWhitespace '\n' = true from by decide]
      simp only [if_true]
      rw [dropWhile_eq_self_of_false (fun c hc => h c (List.mem_reverse.mp hc)),
        List.reverse_reverse]

/-- A remainder at which a `digitpart` stops: empty, or headed by a
character that is neither `'_'` nor a digit. -/
def digitStop (rest : List Char) : Prop :=
  rest = [] ∨ ∃ c r, rest = c :: r ∧ c ≠ '_' ∧ c.isDigit = false

theorem digitRunGo_digits :
    ∀ (ds : List Char), (∀ c ∈ ds, c.isDigit = true) →
    ∀ (acc : Nat) (rest : List Char), digitStop rest →
      digitRunGo acc (ds ++ rest) =
        (ds.foldl (fun a c => 10 * a + digitVal c) acc, rest) := by
  intro ds
  induction ds with
  | nil =>
      intro _ acc rest hrest
      rcases hrest with rfl | ⟨c, r, rfl, hne, hnd⟩
      · rfl
      · rw [digitRunGo.eq_def]
        simp [hne, hnd]
  | cons d t ih =>
      intro h acc rest hrest
      have hd : d.isDigit = true := h d (List.mem_cons_self d t)
      have hdne : d ≠ '_' := isDigit_ne_underscore hd
      rw [List.cons_append]
      rw [show digitRunGo acc (d :: (t ++ rest)) =
            digitRunGo (10 * acc + digitVal d) (t ++ rest) from by
          rw [digitRunGo.eq_def]
          simp [hdne, hd]]
      rw [ih (fun c hc => h c (List.mem_cons_of_mem d hc)) _ rest hrest]
      simp

theorem digitRun_digits {ds : List Char} (hne : ds ≠ [])
    (h : ∀ c ∈ ds, c.isDigit = true) {rest : List Char} (hrest : digitStop rest) :
    digitRun (ds ++ rest) =
      some (ds.foldl (fun a c => 10 * a + digitVal c) 0, rest) := by
  cases ds with
  | nil => exact absurd rfl hne
  | cons d t =>
      have hd : d.isDigit = true := h d (List.mem_cons_self d t)
      rw [List.cons_append]
      rw [show digitRun (d :: (t ++ rest)) = some (digitRunGo (digitVal d) (t ++ rest)) from by
        simp [digitRun, hd]]
      rw [digitRunGo_digits t (fun c hc => h c (List.mem_cons_of_mem d hc)) _ rest hrest]
      simp

theorem stripSign_eq_self {cs : List Char}
    (h : cs = [] ∨ ∃ c r, cs = c :: r ∧ c ≠ '+' ∧ c ≠ '-') : stripSign cs = cs := by
  rcases h with rfl | ⟨c, r, rfl, h1, h2⟩
  · rfl
  · simp [stripSign, h1, h2]

theorem isDigit_ne_plus {c : Char} (h : c.isDigit = true) : c ≠ '+' := by
  intro heq; rw [heq] at h; exact absurd h (by decide)

theorem isDigit_ne_minus {c : Char} (h : c.isDigit = true) : c ≠ '-' := by
  intro heq; rw [heq] at h; exact absurd h (by decide)

theorem pyIsdigit_spec {s : String} (h : pyIsdigit s = true) :
    s.data ≠ [] ∧ ∀ c ∈ s.data, pyIsDigitChar c = true := by
  unfold pyIsdigit at h
  rw [Bool.and_eq_true] at h
  refine ⟨fun hnil => ?_, fun c hc => ?_⟩
  · rw [hnil] at h; exact absurd h.1 (by decide)
  · exact List.all_eq_true.mp h.2 c hc

theorem char_eq_of_toNat_eq {a b : Char} (h : a.toNat = b.toNat) : a = b := by
  apply Char.eq_of_val_eq
  apply UInt32.ext
  exact h

theorem char_isDigit_iff {c : Char} : c.isDigit = true ↔ ('0' ≤ c ∧ c ≤ '9') := by
  simp [Char.isDigit, Char.le_def]

theorem digitCharOf_spec :
    ∀ i, i < 10 → (digitCharOf i).isDigit = true ∧ (digitCharOf i).toNat = 48 + i := by
  decide

theorem ndBlockStart_bounds {c : Char} {b : Nat} (h : ndBlockStart c = some b) :
    b ≤ c.toNat ∧ c.toNat ≤ b + 9 := by
  have hp := List.find?_some h
  simp only [Bool.and_eq_true, decide_eq_true_eq] at hp
  exact hp

theorem transformDecimal_isDigit {c : Char} (h : isReDigit c = true) :
    (transformDecimal c).isDigit = true := by
  unfold isReDigit at h
  obtain ⟨b, hb⟩ := Option.isSome_iff_exists.mp h
  obtain ⟨hle, hge⟩ := ndBlockStart_bounds hb
  unfold transformDecimal
  rw [hb]
  exact (digitCharOf_spec (c.toNat - b) (by omega)).1

theorem ndBlockStart_ascii {c : Char} (h1 : '0' ≤ c) (h2 : c ≤ '9') :
    ndBlockStart c = some 48 := by
  have hl : 48 ≤ c.toNat := by rw [Char.le_def] at h1; exact h1
  have hr : c.toNat ≤ 57 := by rw [Char.le_def] at h2; exact h2
  unfold ndBlockStart ndBlockStarts
  apply List.find?_cons_of_pos
  simp only [Bool.and_eq_true, decide_eq_true_eq]
  exact ⟨hl, by omega⟩

theorem ascii_pyIsDigitChar {c : Char} (h1 : '0' ≤ c) (h2 : c ≤ '9') :
    pyIsDigitChar c = true := by
  unfold pyIsDigitChar isReDigit
  rw [ndBlockStart_ascii h1 h2]
  rfl

theorem transformDecimal_ascii {c : Char} (h1 : '0' ≤ c) (h2 : c ≤ '9') :
    transformDecimal c = c := by
  have hl : 48 ≤ c.toNat := by rw [Char.le_def] at h1; exact h1
  have hr : c.toNat ≤ 57 := by rw [Char.le_def] at h2; exact h2
  unfold transformDecimal
  rw [ndBlockStart_ascii h1 h2]
  apply char_eq_of_toNat_eq
  rw [(digitCharOf_spec (c.toNat - 48) (by omega)).2]
  omega

theorem isReDigit_ne_dot {c : Char} (h : isReDigit c = true) : c ≠ '.' := by
  intro heq; rw [heq] at h; exact absurd h (by decide)

theorem isReDigit_ne_plus {c : Char} (h : isReDigit c = true) : c ≠ '+' := by
  intro heq; rw [heq] at h; exact absurd h (by decide)

theorem isReDigit_ne_minus {c : Char} (h : isReDigit c = true) : c ≠ '-' := by
  intro heq; rw [heq] at h; exact absurd h (by decide)

theorem pyIntParseChars_digits {cs : List Char} (hne : cs ≠ [])
    (hall : ∀ c ∈ cs, c.isDigit = true) :
    pyIntParseChars cs =
      some ((cs.foldl (fun a c => 10 * a + digitVal c) 0 : Nat) : Int) := by
  have hstrip : pyStrip cs = cs :=
    pyStrip_eq_self (fun c hc => isDigit_not_ws (hall c hc))
  unfold pyIntParseChars
  rw [hstrip]
  cases cs with
  | nil => exact absurd rfl hne
  | cons d t =>
      have hd : d.isDigit = true := hall d (List.mem_cons_self d t)
      have hsgn : stripSign (d :: t) = d :: t :=
        stripSign_eq_self (Or.inr ⟨d, t, rfl, isDigit_ne_plus hd, isDigit_ne_minus hd⟩)
      have hrun := digitRun_digits (List.cons_ne_nil d t) hall (Or.inl rfl)
      rw [List.append_nil] at hrun
      have hsv : signVal (d :: t) = 1 := by simp [signVal, isDigit_ne_minus hd]
      simp only [hsgn, hrun, hsv]
      simp

theorem pyIntParse_ascii {s : String} (hne : s.data ≠ [])
    (hall : ∀ c ∈ s.data, '0' ≤ c ∧ c ≤ '9') :
    pyIntParse s = some ((decimalNat s : Int)) := by
  unfold pyIntParse
  have hmap : s.data.map transformDecimal = s.data := by
    rw [List.map_congr_left (fun c hc => transformDecimal_ascii (hall c hc).1 (hall c hc).2)]
    simp
  rw [hmap,
    pyIntParseChars_digits hne (fun c hc => char_isDigit_iff.mpr (hall c hc))]
  rfl

theorem pyIntParse_nd {s : String} (hne : s.data ≠ [])
    (hall : ∀ c ∈ s.data, isReDigit c = true) :
    ∃ n, pyIntParse s = some n := by
  unfold pyIntParse
  have hne' : s.data.map transformDecimal ≠ [] := by
    intro h0
    exact hne (by simpa using h0)
  have hall' : ∀ c ∈ s.data.map transformDecimal, c.isDigit = true := by
    intro c hc
    obtain ⟨a, ha, rfl⟩ := List.mem_map.mp hc
    exact transformDecimal_isDigit (hall a ha)
  exact ⟨_, pyIntParseChars_digits hne' hall'⟩

theorem floatRegexTail_shape {t : List Char} (h : floatRegexTail t = true) :
    ∃ ds fs, (∀ c ∈ ds, isReDigit c = true) ∧ fs ≠ [] ∧
      (∀ c ∈ fs, isReDigit c = true) ∧ t = ds ++ '.' :: fs := by
  induction t with
  | nil => exact absurd h (by decide)
  | cons c rest ih =>
      by_cases hc : c = '.'
      · subst hc
        rw [floatRegexTail, if_pos rfl, Bool.and_eq_true] at h
        refine ⟨[], rest, by simp, fun hnil => ?_, ?_, by simp⟩
        · rw [hnil] at h; exact absurd h.1 (by decide)
        · exact fun x hx => List.all_eq_true.mp h.2 x hx
      · rw [floatRegexTail, if_neg hc, Bool.and_eq_true] at h
        obtain ⟨ds, fs, hds, hfsne, hfs, rfl⟩ := ih h.2
        refine ⟨c :: ds, fs, fun x hx => ?_, hfsne, hfs, by simp⟩
        rcases List.mem_cons.mp hx with rfl | hx'
        · exact h.1
        · exact hds x hx'

theorem floatRegexTail_of_shape :
    ∀ (ds fs : List Char), (∀ c ∈ ds, isReDigit c = true) → fs ≠ [] →
      (∀ c ∈ fs, isReDigit c = true) → floatRegexTail (ds ++ '.' :: fs) = true := by
  intro ds
  induction ds with
  | nil =>
      intro fs _ hfsne hfs
      rw [List.nil_append, floatRegexTail, if_pos rfl, Bool.and_eq_true]
      refine ⟨by simpa using hfsne, List.all_eq_true.mpr hfs⟩
  | cons d t ih =>
      intro fs hds hfsne hfs
      have hd : isReDigit d = true := hds d (List.mem_cons_self d t)
      rw [List.cons_append, floatRegexTail, if_neg (isReDigit_ne_dot hd), Bool.and_eq_true]
      exact ⟨hd, ih fs (fun c hc => hds c (List.mem_cons_of_mem d hc)) hfsne hfs⟩

theorem floatRegexCore_iff {cs : List Char} :
    floatRegexCore cs = true ↔ specFloatShape cs := by
  constructor
  · intro h
    cases cs with
    | nil => exact absurd h (by decide)
    | cons c rest =>
        rw [floatRegexCore, Bool.and_eq_true] at h
        obtain ⟨ds, fs, hds, hfsne, hfs, rfl⟩ := floatRegexTail_shape h.2
        refine ⟨c :: ds, fs, List.cons_ne_nil c ds, hfsne, fun x hx => ?_, hfs, by simp⟩
        rcases List.mem_cons.mp hx with rfl | hx'
        · exact h.1
        · exact hds x hx'
  · rintro ⟨ds, fs, hdsne, hfsne, hds, hfs, rfl⟩
    cases ds with
    | nil => exact absurd rfl hdsne
    | cons d t =>
        have hd : isReDigit d = true := hds d (List.mem_cons_self d t)
        rw [List.cons_append, floatRegexCore, Bool.and_eq_true]
        exact ⟨hd, floatRegexTail_of_shape t fs
          (fun c hc => hds c (List.mem_cons_of_mem d hc)) hfsne hfs⟩

/-- The decimal transform of a `\d+\.\d+`-shaped input: an ASCII-digit
decomposition of the same shape. -/
theorem shape_map_transform {cs : List Char} (h : specFloatShape cs) :
    ∃ ds fs, ds ≠ [] ∧ fs ≠ [] ∧ (∀ c ∈ ds, c.isDigit = true) ∧
      (∀ c ∈ fs, c.isDigit = true) ∧
      cs.map transformDecimal = ds ++ '.' :: fs := by
  obtain ⟨ds, fs, hdsne, hfsne, hds, hfs, rfl⟩ := h
  refine ⟨ds.map transformDecimal, fs.map transformDecimal,
    by simpa using hdsne, by simpa using hfsne, ?_, ?_, ?_⟩
  · intro c hc
    obtain ⟨a, ha, rfl⟩ := List.mem_map.mp hc
    exact transformDecimal_isDigit (hds a ha)
  · intro c hc
    obtain ⟨a, ha, rfl⟩ := List.mem_map.mp hc
    exact transformDecimal_isDigit (hfs a ha)
  · rw [List.map_append, List.map_cons,
      show transformDecimal '.' = '.' from by decide]

theorem ascii_shape_not_ws {ds fs : List Char} (hds : ∀ c ∈ ds, c.isDigit = true)
    (hfs : ∀ c ∈ fs, c.isDigit = true) :
    ∀ c ∈ ds ++ '.' :: fs, isPyWhitespace c = false := by
  intro c hc
  rcases List.mem_append.mp hc with hc' | hc'
  · exact isDigit_not_ws (hds c hc')
  · rcases List.mem_cons.mp hc' with rfl | hc''
    · decide
    · exact isDigit_not_ws (hfs c hc'')

theorem ascii_shape_strip_sign {ds fs : List Char} (hdsne : ds ≠ [])
    (hds : ∀ c ∈ ds, c.isDigit = true) :
    stripSign (ds ++ '.' :: fs) = ds ++ '.' :: fs := by
  cases ds with
  | nil => exact absurd rfl hdsne
  | cons d t =>
      have hd : d.isDigit = true := hds d (List.mem_cons_self d t)
      exact stripSign_eq_self
        (Or.inr ⟨d, t ++ '.' :: fs, by simp, isDigit_ne_plus hd, isDigit_ne_minus hd⟩)

theorem pyFloatBody_of_shape {ds fs : List Char} (hdsne : ds ≠ []) (hfsne : fs ≠ [])
    (hds : ∀ c ∈ ds, c.isDigit = true) (hfs : ∀ c ∈ fs, c.isDigit = true) :
    pyFloatBody (ds ++ '.' :: fs) = true := by
  have h1 : floatDigitpart (ds ++ '.' :: fs) = some ('.' :: fs) := by
    unfold floatDigitpart
    rw [digitRun_digits hdsne hds (Or.inr ⟨'.', fs, rfl, by decide, by decide⟩)]
    rfl
  have h2 : floatDigitpart fs = some [] := by
    unfold floatDigitpart
    have := digitRun_digits hfsne hfs (Or.inl rfl)
    rw [List.append_nil] at this
    rw [this]
    rfl
  have hm : floatMantissa (ds ++ '.' :: fs) = some [] := by
    unfold floatMantissa
    rw [h1]
    simp [h2]
  unfold pyFloatBody
  rw [hm]
  simp

theorem validate_float_imp_accepts {s : String} (h : validate s .float = true) :
    pyFloatAccepts s = true := by
  have h' : reFullMatchFloat s = true := by
    simpa [validate, VALIDATOR] using h
  rw [reFullMatchFloat, Bool.or_eq_true] at h'
  unfold pyFloatAccepts
  rcases h' with hcore | htail
  · obtain ⟨ds, fs, hdsne, hfsne, hds, hfs, hmap⟩ :=
      shape_map_transform (floatRegexCore_iff.mp hcore)
    rw [hmap, pyStrip_eq_self (ascii_shape_not_ws hds hfs),
      ascii_shape_strip_sign hdsne hds]
    exact pyFloatBody_of_shape hdsne hfsne hds hfs
  · rw [Bool.and_eq_true] at htail
    obtain ⟨hlast, hcore⟩ := htail
    have hlast' : s.data.getLast? = some '\n' := by
      simpa using hlast
    have hne : s.data ≠ [] := by
      intro hnil; rw [hnil] at hlast'; exact absurd hlast' (by simp)
    have hdecomp : s.data = s.data.dropLast ++ ['\n'] := by
      have h1 := List.dropLast_append_getLast hne
      rw [List.getLast_eq_iff_getLast?_eq_some hne |>.mpr hlast'] at h1
      exact h1.symm
    obtain ⟨ds, fs, hdsne, hfsne, hds, hfs, hmap⟩ :=
      shape_map_transform (floatRegexCore_iff.mp hcore)
    rw [hdecomp, List.map_append,
      show ['\n'].map transformDecimal = ['\n'] from by decide, hmap,
      pyStrip_snoc_newline (ascii_shape_not_ws hds hfs),
      ascii_shape_strip_sign hdsne hds]
    exact pyFloatBody_of_shape hdsne hfsne hds hfs

/-! ## The claims -/

/-- C1, counterexample: the claimed equivalence "validate(s, k) is true iff
coerce(s, k) does not fail" is false at `s = "yes"`, `k = boolean`: the
boolean caster `x.lower() == "true"` is total, so coercion succeeds
(returning `False`) although the validator rejects `"yes"`. -/
theorem C1_counterexample :
    validate "yes" PyType.bool = false ∧ succeeds (coerce "yes" PyType.bool) = true := by
  decide

/-- C1 (amended): coercion is total for the text and boolean kinds; for
floating-point, `validate(s, k)` implies `coerce(s, k)` does not fail; for
integer the implication holds when every character of `s` is a decimal
digit (category `Nd`), but not in general — `str.isdigit` also accepts the
digit-property extras that `int()` rejects: `validate("²", integer)` is
true while `coerce("²", integer)` raises `ValueError`. -/
theorem C1_validate_implies_coerce_succeeds :
    (∀ s : String, succeeds (coerce s PyType.str) = true) ∧
    (∀ s : String, succeeds (coerce s PyType.bool) = true) ∧
    (∀ s : String, validate s PyType.float = true →
        succeeds (coerce s PyType.float) = true) ∧
    (∀ s : String, validate s PyType.int = true →
        (∀ c ∈ s.data, isReDigit c = true) →
        succeeds (coerce s PyType.int) = true) ∧
    validate "²" PyType.int = true ∧ succeeds (coerce "²" PyType.int) = false := by
  refine ⟨fun s => rfl, fun s => rfl, fun s h => ?_, fun s h hnd => ?_,
    by decide, by decide⟩
  · have ha := validate_float_imp_accepts h
    simp [coerce, CASTER, ha, succeeds]
  · have hd : pyIsdigit s = true := by simpa [validate, VALIDATOR] using h
    obtain ⟨hne, _⟩ := pyIsdigit_spec hd
    obtain ⟨n, hn⟩ := pyIntParse_nd hne hnd
    simp [coerce, CASTER, hn, succeeds]

/-- C4, counterexample: `"TRUE"` equals `"true"` case-insensitively, yet the
validator rejects it (the `VALIDATOR` set holds exactly the four literals
`"True"`, `"False"`, `"true"`, `"false"`), while the caster — which *is*
case-insensitive — would map it to true.  So "valid iff case-insensitively
equal to true/false" is false at `s = "TRUE"`. -/
theorem C4_counterexample :
    pyLower "TRUE" = "true" ∧ validate "TRUE" PyType.bool = false ∧
      coerce "TRUE" PyType.bool = .ok (.bool true) := by
  decide

/-- C4 (amended): `validate(s, boolean)` is true iff `s` is exactly one of
`"True"`, `"False"`, `"true"`, `"false"` (lower-case or title-case, not
arbitrary case mixes); `coerce(s, boolean)` is total and returns true iff
`s` lower-cased equals `"true"`; in particular `"True"` is valid and
coerces to true, and `"yes"` is invalid. -/
theorem C4_boolean_rules :
    (∀ s : String, validate s PyType.bool = true ↔
        (s = "True" ∨ s = "False" ∨ s = "true" ∨ s = "false")) ∧
    (∀ s : String, coerce s PyType.bool = .ok (.bool (pyLower s == "true"))) ∧
    validate "True" PyType.bool = true ∧
    coerce "True" PyType.bool = .ok (.bool true) ∧
    validate "yes" PyType.bool = false := by
  refine ⟨fun s => ?_, fun s => rfl, by decide, by decide, by decide⟩
  simp [validate, VALIDATOR, List.contains]

/-- C5, counterexample: `str.isdigit` (the integer validator) accepts the
superscript `'²'`, which is not one of the characters `0`-`9` — and
`int('²')` even raises — so "valid iff non-empty and only 0-9" is false
at `s = "²"`. -/
theorem C5_counterexample :
    validate "²" PyType.int = true ∧
    ¬ (∀ c ∈ "²".data, '0' ≤ c ∧ c ≤ '9') ∧
    succeeds (coerce "²" PyType.int) = false := by
  decide

/-- C5 (amended): `validate(s, integer)` is true iff `s` is non-empty and
every character is in `str.isdigit`'s class — a class strictly wider than
`0`-`9` (it also holds every Unicode decimal digit, e.g. `'٢'`, and the
digit-property extras, e.g. `'²'`; it holds no letter).  When `s` is
non-empty and consists only of `0`-`9`, it is valid and `coerce(s,
integer)` is the decimal parse of `s`; a decimal digit of another script
also coerces, to its digit value (`int('٢') = 2`), but a digit-property
extra such as `'²'` makes `int()` raise. -/
theorem C5_integer_rules :
    (∀ s : String, validate s PyType.int = true ↔
        (s.data ≠ [] ∧ ∀ c ∈ s.data, pyIsDigitChar c = true)) ∧
    (∀ c : Char, '0' ≤ c → c ≤ '9' → pyIsDigitChar c = true) ∧
    (∀ s : String, s.data ≠ [] → (∀ c ∈ s.data, '0' ≤ c ∧ c ≤ '9') →
        validate s PyType.int = true ∧
        coerce s PyType.int = .ok (.int (decimalNat s))) ∧
    (validate "٢" PyType.int = true ∧ coerce "٢" PyType.int = .ok (.int 2)) ∧
    (pyIsDigitChar '²' = true ∧ succeeds (coerce "²" PyType.int) = false ∧
      pyIsDigitChar 'a' = false) := by
  refine ⟨fun s => ?_, fun c h1 h2 => ascii_pyIsDigitChar h1 h2,
    fun s hne hall => ⟨?_, ?_⟩, by decide, by decide⟩
  · simp [validate, VALIDATOR, pyIsdigit, List.isEmpty_iff]
  · simp only [validate, VALIDATOR, pyIsdigit, Bool.and_eq_true]
    refine ⟨by simpa [List.isEmpty_iff] using hne, ?_⟩
    exact List.all_eq_true.mpr
      (fun c hc => ascii_pyIsDigitChar (hall c hc).1 (hall c hc).2)
  · simp [coerce, CASTER, pyIntParse_ascii hne hall]

/-- C6, counterexample: the claim requires the float validator to accept
exactly `digits '.' digits` with *no trailing characters*, but
`re.match(r"^\d+\.\d+$", x)` also matches when a single newline trails the
input (`$` matches just before a trailing newline), so `"3.14\n"` is
accepted although it does not have the claimed shape. -/
theorem C6_counterexample :
    validate "3.14\n" PyType.float = true ∧ ¬ specFloatShape "3.14\n".data := by
  refine ⟨by decide, fun h => ?_⟩
  have hc : floatRegexCore "3.14\n".data = true := floatRegexCore_iff.mpr h
  exact absurd hc (by decide)

/-- C6 (amended): `validate(s, floating-point)` is true iff `s` has the
shape one-or-more decimal digit characters (`\d`'s class: every Unicode
decimal digit, e.g. also `'١'`), a literal `'.'`, one-or-more decimal
digits — either exactly, or followed by one single trailing newline
(Python's `$` semantics); in particular `"3.14"` and `"١.٥"` are valid
and `"3"` is invalid. -/
theorem C6_float_rules :
    (∀ s : String, validate s PyType.float = true ↔
        (specFloatShape s.data ∨ ∃ core, s.data = core ++ ['\n'] ∧ specFloatShape core)) ∧
    validate "3.14" PyType.float = true ∧ validate "3" PyType.float = false ∧
    validate "١.٥" PyType.float = true := by
  refine ⟨fun s => ?_, by decide, by decide, by decide⟩
  have hval : validate s PyType.float = reFullMatchFloat s := rfl
  rw [hval, reFullMatchFloat, Bool.or_eq_true]
  constructor
  · intro h
    rcases h with hcore | htail
    · exact Or.inl (floatRegexCore_iff.mp hcore)
    · rw [Bool.and_eq_true] at htail
      obtain ⟨hlast, hcore⟩ := htail
      have hlast' : s.data.getLast? = some '\n' := by simpa using hlast
      have hne : s.data ≠ [] := by
        intro hnil; rw [hnil] at hlast'; exact absurd hlast' (by simp)
      have hdecomp : s.data = s.data.dropLast ++ ['\n'] := by
        have h1 := List.dropLast_append_getLast hne
        rw [List.getLast_eq_iff_getLast?_eq_some hne |>.mpr hlast'] at h1
        exact h1.symm
      exact Or.inr ⟨s.data.dropLast, hdecomp, floatRegexCore_iff.mp hcore⟩
  · intro h
    rcases h with hsh | ⟨core, hdecomp, hsh⟩
    · exact Or.inl (floatRegexCore_iff.mpr hsh)
    · refine Or.inr ?_
      rw [Bool.and_eq_true, hdecomp]
      constructor
      · simp
      · rw [List.dropLast_concat]
        exact floatRegexCore_iff.mpr hsh

/-- C2: evaluation of the save action at a failing input.  The session's
single-editor field `log_rotate` (declared integer) holds the working
string `"abc"`, which the integer validator rejects — yet `action_save`
produces its fixed effect sequence (external save-all, bell, success
notification), with no `ValidationError` and no per-field conversion: the
third conjunct shows the result is independent of the session contents
altogether. -/
theorem C2_save_ignores_sessions :
    validate "abc" PyType.int = false ∧
    action_save [("log_rotate", FieldState.single "abc")] =
      [.saveAll, .bell, .notify "已保存更改"] ∧
    (∀ f₁ f₂ : List (String × FieldState), action_save f₁ = action_save f₂) :=
  ⟨by decide, rfl, fun _ _ => rfl⟩

/-- C3, counterexample: removing tracked position 2 of three deletes it from
the displayed/tracked set (`widgets` becomes `["1", "3"]`) but the
underlying committed sequence `data` still holds all three items — item
`"b"` is *not* kept out of the committed sequence, contrary to the claim. -/
theorem C3_counterexample :
    on_button_pressed "EricConfig" "EricConfig_remove_2"
        ⟨["a", "b", "c"], ["1", "2", "3"], ""⟩ =
      (⟨["a", "b", "c"], ["1", "3"], ""⟩, none, none) ∧
    "b" ∈ (on_button_pressed "EricConfig" "EricConfig_remove_2"
        ⟨["a", "b", "c"], ["1", "2", "3"], ""⟩).1.data := by
  decide

/-- C3 (amended): removing a currently-tracked position removes it from the
displayed/tracked set only; the committed item sequence (`data`) and the
pending buffer are unchanged — removed items stay in `data` — and the
remaining tracked items keep their original position keys (no
renumbering, which is what `List.erase` on the key list expresses). -/
theorem C3_remove_is_display_only (classes buttonId : String) (st : MState)
    (hr : strStartsWith buttonId (buttonIdPrefix classes ++ "_remove") = true)
    (hw : st.widgets.contains (pySplitUnderscoreLast buttonId) = true) :
    on_button_pressed classes buttonId st =
      ({ st with widgets := st.widgets.erase (pySplitUnderscoreLast buttonId) },
        none, none) := by
  have h1 : (buttonIdPrefix classes ++ "_remove").data <+: buttonId.data := by
    rw [← List.isPrefixOf_iff_prefix]
    exact hr
  have hne : buttonId ≠ "" := by
    intro hid
    rw [hid] at h1
    have h2 : (buttonIdPrefix classes ++ "_remove").data = [] := List.prefix_nil.mp h1
    rw [String.data_append] at h2
    have h3 := (List.append_eq_nil.mp h2).2
    exact absurd h3 (by decide)
  have hpre : strStartsWith buttonId (buttonIdPrefix classes) = true := by
    unfold strStartsWith
    rw [List.isPrefixOf_iff_prefix]
    refine List.IsPrefix.trans ?_ h1
    rw [String.data_append]
    exact List.prefix_append _ _
  have hw' : pySplitUnderscoreLast buttonId ∈ st.widgets := by simpa using hw
  simp [on_button_pressed, hne, hpre, hr, hw']

/-- Witness for C3's theorem: a one-item field of a model named `F`; the
tracked key `"1"` is erased, the committed item and pending buffer stay. -/
theorem C3_witness :
    on_button_pressed "F" "F_remove_1" ⟨["x"], ["1"], "p"⟩ =
      (⟨["x"], [], "p"⟩, none, none) := by
  rw [C3_remove_is_display_only "F" "F_remove_1" ⟨["x"], ["1"], "p"⟩
    (by decide) (by decide)]
  decide

/-- Each step of a multi-editor session either allocates no position and
leaves the committed sequence as it was, or allocates `len(data) + 1` and
grows the sequence by exactly one — `data` never shrinks. -/
theorem fieldStep_data_cases (classes : String) (st : MState) (e : FieldEvent) :
    ((fieldStep classes st e).2.2 = none ∧ (fieldStep classes st e).1.data = st.data) ∨
    ((fieldStep classes st e).2.2 = some (st.data.length + 1) ∧
      (fieldStep classes st e).1.data.length = st.data.length + 1) := by
  cases e with
  | inputChanged v => exact Or.inl ⟨rfl, rfl⟩
  | buttonPressed id =>
      simp only [fieldStep]
      unfold on_button_pressed
      split
      · exact Or.inl ⟨rfl, rfl⟩
      · split
        · split
          · exact Or.inl ⟨rfl, rfl⟩
          · exact Or.inl ⟨rfl, rfl⟩
        · split
          · exact Or.inl ⟨rfl, rfl⟩
          · refine Or.inr ⟨rfl, ?_⟩
            simp

/-- Across any event sequence the allocated positions are strictly
increasing, and each exceeds the committed length at the start. -/
theorem runEvents_chain (classes : String) :
    ∀ (evs : List FieldEvent) (st : MState),
      List.Chain' (· < ·) (runEvents classes st evs).2 ∧
      ∀ p ∈ (runEvents classes st evs).2, st.data.length < p := by
  intro evs
  induction evs with
  | nil => exact fun st => ⟨List.chain'_nil, by simp [runEvents]⟩
  | cons e es ih =>
      intro st
      obtain ⟨hch, hbd⟩ := ih (fieldStep classes st e).1
      rcases fieldStep_data_cases classes st e with ⟨hpos, hdata⟩ | ⟨hpos, hlen⟩
      · rw [show (runEvents classes st (e :: es)).2 =
              (runEvents classes (fieldStep classes st e).1 es).2 from by
            simp [runEvents, hpos]]
        exact ⟨hch, fun p hp => hdata ▸ hbd p hp⟩
      · rw [show (runEvents classes st (e :: es)).2 =
              (st.data.length + 1) :: (runEvents classes (fieldStep classes st e).1 es).2
            from by simp [runEvents, hpos]]
        constructor
        · rw [List.chain'_cons']
          refine ⟨fun b hb => ?_, hch⟩
          have hmem := hbd b (List.mem_of_mem_head? hb)
          omega
        · intro p hp
          rcases List.mem_cons.mp hp with rfl | hp'
          · omega
          · have := hbd p hp'
            omega

/-- C8: within one session the position indices of successive successful
adds are strictly increasing (hence never reused), whatever remove events
are interleaved; and the concrete scenario — three adds, `remove(2)`, one
more add — ends with tracked positions `{1, 3, 4}` (the new item gets
position 4, not 3). -/
theorem C8_positions_strictly_increasing :
    (∀ (classes : String) (st : MState) (evs : List FieldEvent),
        List.Chain' (· < ·) (runEvents classes st evs).2) ∧
    runEvents "EricConfig" ⟨[], [], ""⟩ addRemoveScenario =
      (⟨["a", "b", "c", "d"], ["1", "3", "4"], ""⟩, [1, 2, 3, 4]) :=
  ⟨fun classes st evs => (runEvents_chain classes evs st).1, by decide⟩

/-- C9: pressing the add button of a multi-editor field whose pending
buffer is empty mounts the empty-input notice and performs no state
change — the committed items, the tracked set and the pending buffer are
exactly as before. -/
theorem C9_empty_add_is_noop (classes buttonId : String) (st : MState)
    (hne : buttonId ≠ "")
    (hpre : strStartsWith buttonId (buttonIdPrefix classes) = true)
    (hnr : strStartsWith buttonId (buttonIdPrefix classes ++ "_remove") = false)
    (hemp : st.input = "") :
    on_button_pressed classes buttonId st = (st, some emptyInputNotice, none) := by
  simp [on_button_pressed, hne, hpre, hnr, hemp]

/-- Witness for C9 at the `EricConfig` add button with an empty buffer. -/
theorem C9_witness :
    on_button_pressed "EricConfig" "EricConfig_add" ⟨["a"], ["1"], ""⟩ =
      (⟨["a"], ["1"], ""⟩, some emptyInputNotice, none) :=
  C9_empty_add_is_noop "EricConfig" "EricConfig_add" ⟨["a"], ["1"], ""⟩
    (by decide) (by decide) (by decide) rfl

/-- C10: when `isinstance(value, typ)` holds, `type_cast` returns the value
unchanged and never raises — including a `bool` against target `int`
(Python's `bool` subclasses `int`) and a value of a type outside the
supported enumeration, since the `isinstance` check precedes the
`typ not in VALIDATOR` check. -/
theorem C10_isinstance_returns_unchanged (v : PyVal) (typ : PyType)
    (h : isinstance v typ = true) : type_cast v typ = .ok v := by
  cases typ with
  | list e => cases v <;> simp [isinstance] at h
  | str => simp [type_cast, h]
  | int => simp [type_cast, h]
  | float => simp [type_cast, h]
  | bool => simp [type_cast, h]
  | other n => simp [type_cast, h]

/-- Witness for C10: a `bool` against `int`, and a `dict` value against the
unsupported type `dict`. -/
theorem C10_witness :
    type_cast (.bool true) PyType.int = .ok (.bool true) ∧
    type_cast (.other "dict") (PyType.other "dict") = .ok (.other "dict") :=
  ⟨C10_isinstance_returns_unchanged _ _ (by decide),
   C10_isinstance_returns_unchanged _ _ (by decide)⟩

/-- C7, counterexample: building the form model for a schema whose only
field has the unsupported declared type `dict` *succeeds* — `from_model`
returns the component list (with an ordinary single-value editor for the
field) instead of failing with an error naming the field, so the claimed
model-build-time failure does not happen. -/
theorem C7_counterexample :
    succeeds (from_model unsupportedFieldModel) = true ∧
    from_model unsupportedFieldModel =
      .ok [.containerTitle "Bad",
        .inputField "Bad" "mapping" "" "*必填 \n\n@type: dict"] := by
  decide

/-- C7 (amended): `from_model` never fails — it performs no check of the
declared type against the supported enumeration, for any schema — and the
unsupported-type error surfaces only if a coercion is attempted:
`type_cast` then raises `NotImplementedError` naming the type (not the
field). -/
theorem C7_build_never_fails :
    (∀ m : PyModel, succeeds (from_model m) = true) ∧
    type_cast (.str "x") (PyType.other "dict") =
      .error (.notImplementedError "Type dict is not supported") :=
  ⟨fun _ => rfl, by decide⟩

end EricPlayground
